import Mathlib

/-
Verification of the Proteus XML loading engine of pyDEXPI
(`pydexpi/loaders/proteus_serializer/`).

Shallow embedding of the data model and the algorithms of
`core.py`, `parsing_utils.py` and `parser_modules.py`:
registries, the error boundary, the three-pass protocol, the
association repair algorithm and the piping connectivity engine.
Machine objects are represented by numeric references (object identity),
Python dicts by association lists with in-place overwrite, and Python
exceptions by explicit sum types.
-/

namespace Pydexpi

/-- Severity levels of diagnostics, from `core.ErrorLevels`. -/
inductive ErrorLevel
  | info
  | warning
  | error
  | critical
deriving DecidableEq, Repr

/-- Kind of a Python exception attached to a diagnostic: the dedicated
internal-bug signal `InternalParserError` versus every other exception. -/
inductive ExcKind
  | internalParserError
  | otherException
deriving DecidableEq, Repr

/-- One entry of the error registry, from `core.ErrorRegistryEntry`:
message, severity, and the causing exception when there is one
(the `proteus_id` attribution field is not needed by any claim). -/
structure ErrEntry where
  message : String
  level : ErrorLevel
  exc : Option ExcKind := none
deriving DecidableEq, Repr

/-- The registry operation `ErrorRegistry.register_error`: the entry is always
appended, and then the exception is re-raised exactly when it is an
`InternalParserError`. The boolean result records whether the call raised. -/
def registerError (errors : List ErrEntry) (e : ErrEntry) : List ErrEntry × Bool :=
  (errors ++ [e], e.exc == some .internalParserError)

/-- Python dict assignment `d[k] = v`: overwrite the value at an existing key
in place, otherwise append the new key at the end (insertion order). -/
def dictSet [BEq κ] (d : List (κ × α)) (k : κ) (v : α) : List (κ × α) :=
  match d with
  | [] => [(k, v)]
  | (k0, v0) :: rest => if k0 == k then (k0, v) :: rest else (k0, v0) :: dictSet rest k v

/-- Python dict lookup `d.get(k)`: the value at the key, or `none`. -/
def dictGet [BEq κ] (d : List (κ × α)) (k : κ) : Option α :=
  match d with
  | [] => none
  | (k0, v0) :: rest => if k0 == k then some v0 else dictGet rest k

/-- Python list subscript `l[i]` with negative-index wrap-around; `none`
models an `IndexError`. -/
def pyIndex (l : List α) (i : Int) : Option α :=
  let j : Int := if i < 0 then (l.length : Int) + i else i
  if 0 ≤ j then l.get? j.toNat else none

/-
Claim C4: the error boundary and the internal-bug signal.

`parsing_utils.redirect_errors_to_registry` wraps every phase method of every
parser node: any exception raised by the body is caught, converted into an
ERROR diagnostic (carrying the exception), and the method returns `None` so
processing continues.  The conversion goes through
`ErrorRegistry.register_error`, which re-raises the exception exactly when it
is an `InternalParserError`; the re-raised exception then escapes the current
boundary, is caught again by each enclosing boundary (which registers a
further entry and re-raises again), and so propagates out of the top-level
load call.
-/

/-- Behaviour of a node-local phase body: it either finishes normally or
raises an exception of the given kind. -/
inductive PhaseBody
  | normal
  | raises (k : ExcKind)
deriving DecidableEq, Repr

/-- A parser node of the module tree: its own phase body plus its submodules,
mirroring `ParserModule.submodules` and the default pass recursion. -/
inductive PNode
  | node (body : PhaseBody) (children : List PNode)

/-- The diagnostic that `redirect_errors_to_registry` registers when the
wrapped phase body raises: an ERROR entry carrying the exception. -/
def boundaryEntry (k : ExcKind) : ErrEntry :=
  { message := "Error in parsing step", level := .error, exc := some k }

mutual

/-- Run one phase over a node under the error boundary: first the submodules
(the default pass recursion), then the node-local body.  The boolean result
is true when an `InternalParserError` escaped this node uncaught; in that
case each boundary on the way out has registered one more entry. -/
def runNode : PNode → List ErrEntry → List ErrEntry × Bool
  | .node body cs, errs =>
    let r := runChildren cs errs
    if r.2 then
      -- the internal signal escaping a submodule is caught by this node's
      -- boundary, registered, and re-raised by register_error
      registerError r.1 (boundaryEntry .internalParserError)
    else
      match body with
      | .normal => (r.1, false)
      | .raises k => registerError r.1 (boundaryEntry k)

/-- Run the phase on a list of submodules in order; a submodule whose run
lets the internal signal escape aborts the remaining siblings. -/
def runChildren : List PNode → List ErrEntry → List ErrEntry × Bool
  | [], errs => (errs, false)
  | c :: rest, errs =>
    let r := runNode c errs
    if r.2 then (r.1, true) else runChildren rest r.1

end

mutual

/-- Whether some node of the tree, at any depth, has a phase body that raises
the internal-bug signal. -/
def raisesInternal : PNode → Bool
  | .node body cs =>
    childrenRaiseInternal cs ||
      (match body with
       | .raises .internalParserError => true
       | _ => false)

/-- Whether some node of the list of subtrees raises the internal-bug signal. -/
def childrenRaiseInternal : List PNode → Bool
  | [] => false
  | c :: rest => raisesInternal c || childrenRaiseInternal rest

end

mutual

theorem runNode_aborts_iff (t : PNode) (errs : List ErrEntry) :
    (runNode t errs).2 = raisesInternal t := by
  cases t with
  | node body cs =>
    have hc := runChildren_aborts_iff cs errs
    unfold runNode raisesInternal
    simp only []
    rw [hc]
    cases h : childrenRaiseInternal cs with
    | true => simp [registerError, boundaryEntry]
    | false =>
      cases body with
      | normal => simp
      | raises k => cases k <;> simp [registerError, boundaryEntry]

theorem runChildren_aborts_iff (cs : List PNode) (errs : List ErrEntry) :
    (runChildren cs errs).2 = childrenRaiseInternal cs := by
  cases cs with
  | nil => rfl
  | cons c rest =>
    have hn := runNode_aborts_iff c errs
    unfold runChildren childrenRaiseInternal
    simp only []
    rw [hn]
    cases h : raisesInternal c with
    | true => simp
    | false => simp [runChildren_aborts_iff rest (runNode c errs).1]

end

/-- Claim C4: an `InternalParserError` raised inside any phase of any node, at
any depth of the parser tree, always propagates out of the top-level load
uncaught (the run aborts), while every other exception is converted into a
logged diagnostic with continued processing (the run completes normally):
the load aborts if and only if some node raises the internal-bug signal. -/
theorem internal_error_always_propagates (t : PNode) (errs : List ErrEntry) :
    (runNode t errs).2 = raisesInternal t :=
  runNode_aborts_iff t errs

/-
The object model shared by the association claims (C3, C6).

A DEXPI domain object is represented by a numeric reference `ObjId`; its
pydantic fields, in declaration order, are each either a singular slot
(`None` or one object) or a list.  Whether a pydantic assignment of the
candidate object validates against the declared field type is abstracted
into a per-field boolean `accepts`.
-/

/-- Numeric reference standing for one Python object (object identity). -/
abbrev ObjId := Nat

/-- Value held by one pydantic field: a singular slot or a list field. -/
inductive FieldVal
  | slot (v : Option ObjId)
  | coll (l : List ObjId)
deriving DecidableEq, Repr

/-- One pydantic field of a domain object: whether assigning the candidate
object to it passes validation, and its current value. -/
structure Field where
  accepts : Bool
  val : FieldVal
deriving DecidableEq, Repr

/-- The fields of a domain object, in `model_fields` declaration order. -/
abbrev Fields := List Field

/-- `parsing_utils.is_associated_with`: scan every field of the container;
a list field matches when the member is in the list, any other field matches
when its value equals the member. -/
def isAssociatedWith (member : ObjId) (container : Fields) : Bool :=
  container.any fun f =>
    match f.val with
    | .coll l => l.contains member
    | .slot v => v == some member

/-- `parsing_utils.add_by_inferring_type`: walk the fields in declaration
order; set the first unset singular field that validates, otherwise append to
the first list field that validates; `none` models the `ValueError` raised
when no suitable field exists.  (A slot that is `None` but fails validation
falls through, as does an occupied slot, whose value cannot be turned into a
list.) -/
def addByInferringType (obj : ObjId) : Fields → Option Fields
  | [] => none
  | f :: rest =>
    match f.val with
    | .slot none =>
      if f.accepts then some ({ f with val := .slot (some obj) } :: rest)
      else (addByInferringType obj rest).map (f :: ·)
    | .slot (some _) => (addByInferringType obj rest).map (f :: ·)
    | .coll l =>
      if f.accepts then some ({ f with val := .coll (l ++ [obj]) } :: rest)
      else (addByInferringType obj rest).map (f :: ·)

/-
Claims C3 and C6: `AssociationParser` and the nozzle passes.
-/

/-- Registry of created objects keyed by Proteus id, from
`core.ObjectRegistry.objects`; the key is the raw value of `element.get`,
which can be `None`. -/
abbrev RegistryL := List (Option String × ObjId)

/-- State of one `AssociationParser`: id and type read in the compositional
pass, referenced object resolved in the reference pass. -/
structure AssocState where
  associationId : Option String
  associationType : Option String
  referencedItem : Option ObjId
deriving DecidableEq, Repr

/-- `AssociationParser.compositional_pass`: read `ItemID` and `Type` from the
element; no resolution happens. -/
def assocCompositionalPass (itemId typ : Option String) : AssocState :=
  { associationId := itemId, associationType := typ, referencedItem := none }

/-- `AssociationParser.reference_pass`: when an id was read, look it up in the
object registry; absence simply leaves `referenced_item` as `None`. -/
def assocReferencePass (reg : RegistryL) (a : AssocState) : AssocState :=
  if a.associationId.isSome then { a with referencedItem := dictGet reg a.associationId }
  else a

/-- `AssociationParser.is_valid`: id, type and referenced object all present. -/
def assocIsValid (a : AssocState) : Bool :=
  a.associationId.isSome && a.associationType.isSome && a.referencedItem.isSome

/-- `AssociationParser.get_error_message` for an invalid association. -/
def assocErrorMessage (a : AssocState) : String :=
  if a.associationId.isNone then
    "Association ItemID is missing in the XML element. Association skipped."
  else if a.associationType.isNone then
    "Association Type is missing in the XML element. Association skipped."
  else
    "Associated object with ID " ++ a.associationId.getD "" ++
      " not found. Association skipped."

/-- `ErrorTemplates.no_assoc_ctrl` (WARNING). -/
def noAssocCtrlEntry (assocId : String) : ErrEntry :=
  { message := "Association of Nozzle with " ++ assocId ++
      " is missing in control pass. Attempt adding association.",
    level := .warning }

/-- `ErrorTemplates.assoc_added_ctrl` (INFO). -/
def assocAddedCtrlEntry (assocId : String) : ErrEntry :=
  { message := "Association of Nozzle with " ++ assocId ++
      " added in control pass.",
    level := .info }

/-- `ErrorTemplates.assoc_not_added_ctrl` (ERROR, caused by the `ValueError`
from `add_by_inferring_type`). -/
def assocNotAddedCtrlEntry (assocId : String) : ErrEntry :=
  { message := "Association of Nozzle with " ++ assocId ++
      " could not be added in control pass.",
    level := .error, exc := some .otherException }

/-- The WARNING logged by `NozzleParser.reference_pass` for an association
type that is not permitted for nozzles. -/
def assocNotPermittedEntry : ErrEntry :=
  { message := "Association type not permitted for nozzles. Association skipped.",
    level := .warning }

/-- State of the nozzle and of the one object its association references:
the fields of the nozzle object (the `chamber` attribute among them, at a
known index), the fields of the associated object, and the error registry. -/
structure NozzleSt where
  nozzleFields : Fields
  targetFields : Fields
  errors : List ErrEntry
deriving DecidableEq, Repr

/-- The pydantic assignment `nozzle_obj.chamber = assoc_object`: the chamber
attribute is the field at index `i` of the nozzle's field list. -/
def setFieldSlot (fs : Fields) (i : Nat) (v : Option ObjId) : Fields :=
  match fs.get? i with
  | some f => fs.set i { f with val := .slot v }
  | none => fs

/-- The per-association body of `NozzleParser.reference_pass` (the loop over
`association_parsers`): an invalid association is logged as ERROR and
dropped; `is located in` assigns the chamber reference; `is the location of`
is deferred to the control pass; any other type is logged as WARNING. -/
def nozzleRefAssoc (chamberIdx : Nat) (a : AssocState) (st : NozzleSt) : NozzleSt :=
  if assocIsValid a = false then
    { st with errors := st.errors ++ [⟨assocErrorMessage a, .error, none⟩] }
  else if a.associationType == some "is located in" then
    { st with nozzleFields := setFieldSlot st.nozzleFields chamberIdx a.referencedItem }
  else if a.associationType == some "is the location of" then st
  else
    { st with errors := st.errors ++ [assocNotPermittedEntry] }

/-- The per-association body of `NozzleParser.control_pass`: an invalid
association is logged as ERROR again and dropped; for a located-type
association already reflected as an edge in either direction (checked with
`is_associated_with` both ways) nothing happens; otherwise a WARNING is
logged and the association is repaired with `add_by_inferring_type`, first
nozzle-into-target, then in reverse order, logging INFO on success and ERROR
when neither direction accepts it. -/
def nozzleCtrlAssoc (nzId : ObjId) (a : AssocState) (st : NozzleSt) : NozzleSt :=
  if assocIsValid a = false then
    { st with errors := st.errors ++ [⟨assocErrorMessage a, .error, none⟩] }
  else if (a.associationType == some "is located in" ||
      a.associationType == some "is the location of") = false then
    st
  else
    match a.referencedItem with
    | none => st
    | some tgId =>
      if isAssociatedWith nzId st.targetFields || isAssociatedWith tgId st.nozzleFields then
        st
      else
        let aid := a.associationId.getD ""
        let errs1 := st.errors ++ [noAssocCtrlEntry aid]
        match addByInferringType nzId st.targetFields with
        | some tg1 =>
          { st with targetFields := tg1, errors := errs1 ++ [assocAddedCtrlEntry aid] }
        | none =>
          match addByInferringType tgId st.nozzleFields with
          | some nz1 =>
            { st with nozzleFields := nz1, errors := errs1 ++ [assocAddedCtrlEntry aid] }
          | none =>
            { st with errors := errs1 ++ [assocNotAddedCtrlEntry aid] }

/-- Claim C3: the control-phase repair is idempotent.  For a valid
located-type association that is reflected as an edge (in either direction)
after a first run of the control-pass body, a second run detects the edge via
the `is_associated_with` membership check and changes nothing: no second
edge, no further diagnostics. -/
theorem control_pass_repair_idempotent (nzId tgId : ObjId) (a : AssocState)
    (st : NozzleSt) (hval : assocIsValid a = true)
    (hloc : (a.associationType == some "is located in" ||
      a.associationType == some "is the location of") = true)
    (href : a.referencedItem = some tgId)
    (hrefl : isAssociatedWith nzId (nozzleCtrlAssoc nzId a st).targetFields = true ∨
      isAssociatedWith tgId (nozzleCtrlAssoc nzId a st).nozzleFields = true) :
    nozzleCtrlAssoc nzId a (nozzleCtrlAssoc nzId a st) = nozzleCtrlAssoc nzId a st := by
  generalize hs1 : nozzleCtrlAssoc nzId a st = s1 at hrefl
  rcases hrefl with h | h <;>
    simp [nozzleCtrlAssoc, hval, hloc, href, h]

/-- Witness for C3 at a concrete state: the first control run repairs the
association by appending the nozzle to an accepting list field of the target,
after which the edge is reflected and the second run is the identity. -/
theorem control_pass_repair_idempotent_witness :
    assocIsValid ⟨some "T", some "is located in", some 1⟩ = true ∧
    nozzleCtrlAssoc 0 ⟨some "T", some "is located in", some 1⟩
      (nozzleCtrlAssoc 0 ⟨some "T", some "is located in", some 1⟩
        ⟨[], [⟨true, .coll []⟩], []⟩) =
      nozzleCtrlAssoc 0 ⟨some "T", some "is located in", some 1⟩
        ⟨[], [⟨true, .coll []⟩], []⟩ := by
  refine ⟨by decide, control_pass_repair_idempotent 0 1 _ _ (by decide) (by decide)
    (by decide) (Or.inl (by decide))⟩

/-- Counterexample for C6: an association whose target id "X" was never
registered is logged as ERROR once by the nozzle reference pass and once
more by the nozzle control pass — two ERROR diagnostics in total, not
exactly one. -/
theorem unregistered_association_two_errors :
    ((nozzleCtrlAssoc 0
        (assocReferencePass [] (assocCompositionalPass (some "X") (some "is located in")))
        (nozzleRefAssoc 0
          (assocReferencePass [] (assocCompositionalPass (some "X") (some "is located in")))
          ⟨[], [], []⟩)).errors.countP (fun e => e.level == .error)) = 2 := by
  decide

/-- Claim C6 (amended): resolving an association whose target id was never
registered yields an invalid association without raising; each of the
reference pass and the control pass drops it with exactly one ERROR
diagnostic (so two in total), and it is never applied as an edge — the
fields of the nozzle and of every other object are untouched. -/
theorem unregistered_association_dropped (reg : RegistryL) (i typ : String)
    (chamberIdx : Nat) (nzId : ObjId) (st : NozzleSt) (a : AssocState)
    (hreg : dictGet reg (some i) = none)
    (ha : a = assocReferencePass reg (assocCompositionalPass (some i) (some typ))) :
    assocIsValid a = false ∧
    nozzleRefAssoc chamberIdx a st =
      { st with errors := st.errors ++ [⟨assocErrorMessage a, .error, none⟩] } ∧
    nozzleCtrlAssoc nzId a (nozzleRefAssoc chamberIdx a st) =
      { st with errors := st.errors ++ [⟨assocErrorMessage a, .error, none⟩,
          ⟨assocErrorMessage a, .error, none⟩] } := by
  subst ha
  have hinval : assocIsValid
      (assocReferencePass reg (assocCompositionalPass (some i) (some typ))) = false := by
    simp [assocIsValid, assocReferencePass, assocCompositionalPass, hreg]
  refine ⟨hinval, ?_, ?_⟩
  · simp [nozzleRefAssoc, hinval]
  · simp [nozzleRefAssoc, nozzleCtrlAssoc, hinval]

/-- Witness for C6 at a concrete input: target id "X" absent from an empty
registry, one association, a nozzle with no fields set. -/
theorem unregistered_association_dropped_witness :
    dictGet ([] : RegistryL) (some "X") = none ∧
    assocIsValid (assocReferencePass []
      (assocCompositionalPass (some "X") (some "is located in"))) = false := by
  refine ⟨by decide, (unregistered_association_dropped [] "X" "is located in" 0 0
    ⟨[], [], []⟩ _ (by decide) rfl).1⟩

/-
Claims C5 and C10: the object registry and the registration discipline.
-/

/-- The object registry together with the chronological log of the keys
passed to `ObjectRegistry.register_object` (the log is specification
instrumentation used to count registrations; the dict is the source's
`self.objects`). -/
structure ObjRegistry where
  objects : RegistryL
  regLog : List (Option String)
deriving DecidableEq, Repr

/-- `ObjectRegistry.register_object`: plain dict assignment — an existing
entry under the same id is silently overwritten, nothing enforces
write-once. -/
def registerObject (r : ObjRegistry) (k : Option String) (v : ObjId) : ObjRegistry :=
  { objects := dictSet r.objects k v, regLog := r.regLog ++ [k] }

/-- `ErrorTemplates.id_not_found` (ERROR). -/
def idNotFoundEntry (elementName : String) : ErrEntry :=
  { message := "ID not found for element " ++ elementName ++ ". Element Skipped.",
    level := .error }

/-- `PipingNodeParser.compositional_pass`: read the `ID` attribute, log the
id-not-found ERROR when it is absent — but, unlike every other parser, do
not return: the `PipingNode` (identity `nodeRef`; its generic attributes do
not affect registration and are abstracted away) is still created, still
registered under `node_id` — which is `None` when the attribute was absent —
and still returned. -/
def pipingNodeCompositionalPass (elemId : Option String) (nodeRef : ObjId)
    (reg : ObjRegistry) (errors : List ErrEntry) :
    Option ObjId × ObjRegistry × List ErrEntry :=
  let errors1 :=
    match elemId with
    | none => errors ++ [idNotFoundEntry "Node"]
    | some _ => errors
  (some nodeRef, registerObject reg elemId nodeRef, errors1)

/-- Claim C5, evaluated at the failing input (a `Node` element with no `ID`
attribute): exactly one ERROR is logged, as the claim demands, but the
element is not skipped — the pass still returns the created node — and the
object is registered in the registry under the null id. -/
theorem missing_id_node_still_registered :
    pipingNodeCompositionalPass none 7 ⟨[], []⟩ [] =
      (some 7, ⟨[(none, 7)], [none]⟩, [idNotFoundEntry "Node"]) ∧
    dictGet (pipingNodeCompositionalPass none 7 ⟨[], []⟩ []).2.1.objects none = some 7 := by
  decide

/-- The registration step of `NozzleParser.compositional_pass`: with a
missing `ID` the parser logs the ERROR and returns `None` without
registering; otherwise the created nozzle is registered under its id. -/
def nozzleCompositionalRegistration (elemId : Option String) (nozzleRef : ObjId)
    (reg : ObjRegistry) (errors : List ErrEntry) :
    Option ObjId × ObjRegistry × List ErrEntry :=
  match elemId with
  | none => (none, reg, errors ++ [idNotFoundEntry "Nozzle"])
  | some i => (some nozzleRef, registerObject reg (some i) nozzleRef, errors)

/-- Combined state for the reference pass of an `AssociationParser`: the
shared registry and the association being resolved. -/
structure AssocRefSt where
  registry : ObjRegistry
  assoc : AssocState
deriving DecidableEq, Repr

/-- `AssociationParser.reference_pass` acting on the combined state: the
resolution only calls `get_object`, a read. -/
def assocReferencePassSt (st : AssocRefSt) : AssocRefSt :=
  { st with assoc := assocReferencePass st.registry.objects st.assoc }

/-- Overwrite semantics of dict assignment: writing a key twice keeps the
second value. -/
theorem dictGet_dictSet [BEq κ] [LawfulBEq κ] (d : List (κ × α)) (k : κ) (v : α) :
    dictGet (dictSet d k v) k = some v := by
  induction d with
  | nil => simp [dictSet, dictGet]
  | cons p rest ih =>
    obtain ⟨k0, v0⟩ := p
    by_cases h : (k0 == k) = true
    · simp [dictSet, dictGet, h]
    · simp [dictSet, dictGet, h, ih]

/-- Counterexample for C10: a load whose document holds two nozzle elements
with the same `ID` "N1" performs two registrations under that one id, the
second silently overwriting the first. -/
theorem duplicate_id_double_registration :
    ((nozzleCompositionalRegistration (some "N1") 2
        (nozzleCompositionalRegistration (some "N1") 1 ⟨[], []⟩ []).2.1 []).2.1.regLog.count
      (some "N1")) = 2 ∧
    dictGet ((nozzleCompositionalRegistration (some "N1") 2
        (nozzleCompositionalRegistration (some "N1") 1 ⟨[], []⟩ []).2.1 []).2.1.objects)
      (some "N1") = some 2 := by
  decide

/-- Claim C10 (amended): the reference pass only reads the object registry —
resolving an association leaves the registry untouched — and a compositional
pass performs at most one registration per parsed element (none when the id
is missing); but at-most-once-per-id is not enforced: a second registration
under the same id goes through and silently overwrites the first. -/
theorem registration_discipline (st : AssocRefSt) (elemId : Option String)
    (ref : ObjId) (reg : ObjRegistry) (errors : List ErrEntry)
    (d : RegistryL) (k : Option String) (v1 v2 : ObjId) :
    (assocReferencePassSt st).registry = st.registry ∧
    ((nozzleCompositionalRegistration elemId ref reg errors).2.1.regLog = reg.regLog ∨
      (nozzleCompositionalRegistration elemId ref reg errors).2.1.regLog =
        reg.regLog ++ [elemId]) ∧
    dictGet (dictSet (dictSet d k v1) k v2) k = some v2 := by
  refine ⟨rfl, ?_, dictGet_dictSet _ _ _⟩
  cases elemId with
  | none => exact Or.inl rfl
  | some i => exact Or.inr rfl

/-
Claim C7: main inflow / outflow port selection of `PipingComponentParser`.
-/

/-- Parse result of one `ConnectionPoints` element
(`ConnectionPointParser.compositional_pass`): the created `PipingNode`
objects and the `FlowIn` / `FlowOut` attributes (absent → `None`). -/
structure ConnPt where
  nodes : List ObjId
  flowIn : Option Int
  flowOut : Option Int
deriving DecidableEq, Repr

/-- The ERROR logged when the explicit inflow index exceeds the node count. -/
def inflowOutOfBoundsEntry : ErrEntry :=
  { message := "Inflow index is out of bounds for the number of piping nodes. Using first node instead.",
    level := .error }

/-- The ERROR logged when the explicit outflow index exceeds the node count. -/
def outflowOutOfBoundsEntry : ErrEntry :=
  { message := "Outflow index is out of bounds for the number of piping nodes. Using first node instead.",
    level := .error }

/-- The ERROR logged for a second explicit inflow declaration. -/
def multipleInflowEntry : ErrEntry :=
  { message := "Multiple inflow nodes found. Only one inflow node is allowed. Using first encountered node.",
    level := .error }

/-- The ERROR logged for a second explicit outflow declaration. -/
def multipleOutflowEntry : ErrEntry :=
  { message := "Multiple outflow nodes found. Only one outflow node is allowed. Using first encountered node.",
    level := .error }

/-- The inflow half of the loop body of
`PipingComponentParser.compositional_pass`: a duplicate declaration logs
ERROR and keeps the first; the out-of-bounds check only fires for an index
above the node count, otherwise `piping_nodes[inflow_index - 1]` is taken
with Python indexing — an `IndexError` (`.error` result) escapes to the
error boundary and voids the whole pass. -/
def inflowStep (cp : ConnPt) (nodes1 : List ObjId) (mainIn : Option ObjId)
    (errors : List ErrEntry) : Except (List ErrEntry) (Option ObjId × List ErrEntry) :=
  match cp.flowIn with
  | none => .ok (mainIn, errors)
  | some idx =>
    match mainIn with
    | some n => .ok (some n, errors ++ [multipleInflowEntry])
    | none =>
      if (nodes1.length : Int) < idx then .ok (none, errors ++ [inflowOutOfBoundsEntry])
      else
        match pyIndex nodes1 (idx - 1) with
        | some n => .ok (some n, errors)
        | none => .error (errors ++ [boundaryEntry .otherException])

/-- The outflow half of the same loop body, mirroring `inflowStep`. -/
def outflowStep (cp : ConnPt) (nodes1 : List ObjId) (mainOut : Option ObjId)
    (errors : List ErrEntry) : Except (List ErrEntry) (Option ObjId × List ErrEntry) :=
  match cp.flowOut with
  | none => .ok (mainOut, errors)
  | some idx =>
    match mainOut with
    | some n => .ok (some n, errors ++ [multipleOutflowEntry])
    | none =>
      if (nodes1.length : Int) < idx then .ok (none, errors ++ [outflowOutOfBoundsEntry])
      else
        match pyIndex nodes1 (idx - 1) with
        | some n => .ok (some n, errors)
        | none => .error (errors ++ [boundaryEntry .otherException])

/-- The loop of `PipingComponentParser.compositional_pass` over the
connection point parsers: extend the cumulative node list, then run the
inflow and outflow halves; a `none` first component models the pass voided
by an escaped exception. -/
def selectMainNodesGo : List ConnPt → List ObjId → Option ObjId → Option ObjId →
    List ErrEntry → Option (List ObjId × Option ObjId × Option ObjId) × List ErrEntry
  | [], ns, mi, mo, errors => (some (ns, mi, mo), errors)
  | cp :: rest, ns, mi, mo, errors =>
    let nodes1 := ns ++ cp.nodes
    match inflowStep cp nodes1 mi errors with
    | .error errs => (none, errs)
    | .ok (mi1, errs1) =>
      match outflowStep cp nodes1 mo errs1 with
      | .error errs2 => (none, errs2)
      | .ok (mo1, errs2) => selectMainNodesGo rest nodes1 mi1 mo1 errs2

/-- Main-node selection over all connection points of a piping component. -/
def selectMainNodes (cps : List ConnPt) :
    Option (List ObjId × Option ObjId × Option ObjId) × List ErrEntry :=
  selectMainNodesGo cps [] none none []

/-- `PipingComponentParser.get_main_inflow_node`: the explicit node, else the
first node, else `None`. -/
def getMainInflowNode (nodes : List ObjId) (mainIn : Option ObjId) : Option ObjId :=
  match mainIn with
  | some n => some n
  | none => nodes.head?

/-- `PipingComponentParser.get_main_outflow_node`: the explicit node, else
the second node, else `None`. -/
def getMainOutflowNode (nodes : List ObjId) (mainOut : Option ObjId) : Option ObjId :=
  match mainOut with
  | some n => some n
  | none => nodes.get? 1

/-- Counterexample for C7: the explicit 1-based inflow index 0 is out of
range for the two-node port list, yet no ERROR is logged and the main inflow
port becomes the last node (Python indexing `nodes[-1]`), not the first-node
default demanded by the claim. -/
theorem port_index_zero_silently_wraps :
    selectMainNodes [⟨[10, 20], some 0, none⟩] = (some ([10, 20], some 20, none), []) ∧
    getMainInflowNode [10, 20] (some 20) = some 20 ∧
    getMainInflowNode [10, 20] none = some 10 := by
  decide

/-- Claim C7 (amended): an explicit index above the number of ports logs
exactly one ERROR and leaves the main port unassigned, so that the getter
falls back to the default (first port as inflow, second as outflow); an
in-range index (between 1 and the port count) overrides the default with the
1-based port it names and logs nothing.  (Indices below 1 are not range
checked — see the counterexample.) -/
theorem explicit_port_index_range_behaviour (nodes : List ObjId) (idx : Int) :
    ((nodes.length : Int) < idx →
      selectMainNodes [⟨nodes, some idx, none⟩] =
        (some (nodes, none, none), [inflowOutOfBoundsEntry]) ∧
      selectMainNodes [⟨nodes, none, some idx⟩] =
        (some (nodes, none, none), [outflowOutOfBoundsEntry]) ∧
      getMainInflowNode nodes none = nodes.head? ∧
      getMainOutflowNode nodes none = nodes.get? 1) ∧
    (1 ≤ idx → idx ≤ (nodes.length : Int) →
      selectMainNodes [⟨nodes, some idx, none⟩] =
        (some (nodes, nodes.get? (idx - 1).toNat, none), []) ∧
      selectMainNodes [⟨nodes, none, some idx⟩] =
        (some (nodes, none, nodes.get? (idx - 1).toNat), []) ∧
      (nodes.get? (idx - 1).toNat).isSome = true) := by
  constructor
  · intro hgt
    have h1 : selectMainNodes [⟨nodes, some idx, none⟩] =
        (some (nodes, none, none), [inflowOutOfBoundsEntry]) := by
      simp [selectMainNodes, selectMainNodesGo, inflowStep, outflowStep, hgt]
    have h2 : selectMainNodes [⟨nodes, none, some idx⟩] =
        (some (nodes, none, none), [outflowOutOfBoundsEntry]) := by
      simp [selectMainNodes, selectMainNodesGo, inflowStep, outflowStep, hgt]
    exact ⟨h1, h2, rfl, rfl⟩
  · intro h1 h2
    have hnlt : ¬ ((nodes.length : Int) < idx) := not_lt.mpr h2
    have hnonneg : 0 ≤ idx - 1 := by omega
    have hpy : pyIndex nodes (idx - 1) = nodes.get? (idx - 1).toNat := by
      simp [pyIndex, show ¬ (idx - 1 < 0) by omega, hnonneg]
    have hlt : (idx - 1).toNat < nodes.length := by omega
    have hsome : (nodes.get? (idx - 1).toNat).isSome = true := by
      rw [List.get?_eq_get hlt]
      rfl
    obtain ⟨n, hn⟩ := Option.isSome_iff_exists.mp hsome
    have heq : (idx - 1).toNat = idx.toNat - 1 := by omega
    rw [heq, List.get?_eq_getElem?] at hn
    refine ⟨?_, ?_, hsome⟩
    · simp [selectMainNodes, selectMainNodesGo, inflowStep, outflowStep, hnlt, hpy, heq, hn]
    · simp [selectMainNodes, selectMainNodesGo, inflowStep, outflowStep, hnlt, hpy, heq, hn]

/-- Witness for C7 at concrete inputs: index 3 on a two-port item logs the
out-of-bounds ERROR and defaults, index 2 on the same item overrides with
the second port. -/
theorem explicit_port_index_range_behaviour_witness :
    ((([10, 20] : List ObjId).length : Int) < 3 ∧
      selectMainNodes [⟨[10, 20], some 3, none⟩] =
        (some ([10, 20], none, none), [inflowOutOfBoundsEntry])) ∧
    ((1 : Int) ≤ 2 ∧ (2 : Int) ≤ (([10, 20] : List ObjId).length : Int) ∧
      selectMainNodes [⟨[10, 20], some 2, none⟩] =
        (some ([10, 20], some 20, none), [])) := by
  refine ⟨⟨by decide, ((explicit_port_index_range_behaviour [10, 20] 3).1 (by decide)).1⟩,
    ⟨by decide, by decide, ?_⟩⟩
  have h := ((explicit_port_index_range_behaviour [10, 20] 2).2 (by decide) (by decide)).1
  simpa using h

/-
Claim C8: duplicate handling of `GenericAttributeParser`.
-/

/-- One `GenericAttributes` block: its attribute assignments in source order,
after name normalisation, restricted to plain schema fields (the Set-kind
filter and the typed coercions of `parse_single_attribute_set` do not
interact with duplicate handling and are abstracted away; values are
numbers). -/
abbrev AttrBlock := List (String × Nat)

/-- The dict building of `parse_single_attribute_set`:
`attributes[name] = value` for each assignment in order — within one block a
repeated name silently overwrites the earlier value (last wins). -/
def parseSingleAttributeSet (b : AttrBlock) : List (String × Nat) :=
  b.foldl (fun d p => dictSet d p.1 p.2) []

/-- One step of `GenericAttributeParser.check_for_duplicates`: a name already
seen goes to the duplicate set, otherwise it is recorded as seen. -/
def dupScanStep (st : List String × List String) (name : String) :
    List String × List String :=
  if st.1.contains name then
    (st.1, if st.2.contains name then st.2 else st.2 ++ [name])
  else (st.1 ++ [name], st.2)

/-- The scan of one attribute set's keys in `check_for_duplicates`. -/
def dupScan (names : List String) (st : List String × List String) :
    List String × List String :=
  names.foldl dupScanStep st

/-- `GenericAttributeParser.check_for_duplicates`: scan the keys of every
set in block order and collect the names seen more than once. -/
def checkForDuplicates (sets : List (List (String × Nat))) : List String :=
  (sets.foldl (fun st s => dupScan (s.map Prod.fst) st) ([], [])).2

/-- The inner loop of `GenericAttributeParser.merge_attributes`: add each
attribute of one set only when its name is not yet present in the merge. -/
def mergeOneSet (m : List (String × Nat)) (s : List (String × Nat)) :
    List (String × Nat) :=
  s.foldl (fun m p => if (dictGet m p.1).isNone then m ++ [p] else m) m

/-- `GenericAttributeParser.merge_attributes`: fold the sets in block order,
adding an attribute only when its name is not yet present — the first
occurrence across sets wins, later ones are silently dropped. -/
def mergeAttributes (sets : List (List (String × Nat))) : List (String × Nat) :=
  sets.foldl mergeOneSet []

/-- The ERROR entry registered by `GenericAttributeParser.compositional_pass`
when duplicates were found, naming all of them. -/
def duplicateAttrEntry (dups : List String) : ErrEntry :=
  { message := "Duplicate attributes found: " ++ String.intercalate ", " dups ++
      ". Duplicates ignored.",
    level := .error }

/-- The duplicate-handling portion of
`GenericAttributeParser.compositional_pass`: parse each `GenericAttributes`
set, log one ERROR naming all duplicates when there are any, and merge. -/
def gaCompositionalPass (blocks : List AttrBlock) :
    List (String × Nat) × List ErrEntry :=
  let sets := blocks.map parseSingleAttributeSet
  let dups := checkForDuplicates sets
  let errors := if dups.isEmpty then [] else [duplicateAttrEntry dups]
  (mergeAttributes sets, errors)

theorem list_contains_iff {α : Type} [BEq α] [LawfulBEq α] (l : List α) (a : α) :
    l.contains a = true ↔ a ∈ l := by
  induction l with
  | nil => simp
  | cons b t ih => simp [List.contains_cons, ih]

theorem dictGet_append {κ α : Type} [BEq κ] (d e : List (κ × α)) (k : κ) :
    dictGet (d ++ e) k =
      (match dictGet d k with
       | some v => some v
       | none => dictGet e k) := by
  induction d with
  | nil => simp [dictGet]
  | cons p rest ih =>
    by_cases h : (p.1 == k) = true <;>
      simp [dictGet, h, ih]

theorem dictGet_isSome_iff_mem_keys {α : Type} (d : List (String × α)) (k : String) :
    (dictGet d k).isSome = true ↔ k ∈ d.map Prod.fst := by
  induction d with
  | nil => simp [dictGet]
  | cons p rest ih =>
    by_cases h : (p.1 == k) = true
    · have : p.1 = k := by simpa using h
      simp [dictGet, h, this]
    · have : ¬ p.1 = k := by simpa using h
      simp [dictGet, h, ih, this, Ne.symm this]

theorem mem_keys_dictSet {α : Type} (d : List (String × α)) (k a : String) (v : α) :
    a ∈ (dictSet d k v).map Prod.fst ↔ a ∈ d.map Prod.fst ∨ a = k := by
  induction d with
  | nil => simp [dictSet]
  | cons p rest ih =>
    by_cases h : (p.1 == k) = true
    · have hk : p.1 = k := by simpa using h
      simp [dictSet, h, hk]
      tauto
    · simp [dictSet, h, ih]
      tauto

theorem keys_dictSet_nodup {α : Type} (d : List (String × α)) (k : String) (v : α)
    (h : (d.map Prod.fst).Nodup) : ((dictSet d k v).map Prod.fst).Nodup := by
  induction d with
  | nil => simp [dictSet]
  | cons p rest ih =>
    obtain ⟨k0, v0⟩ := p
    by_cases hk : (k0 == k) = true
    · simpa [dictSet, hk] using h
    · have hne : ¬ k0 = k := by simpa using hk
      simp only [List.map_cons, List.nodup_cons] at h
      rw [show dictSet ((k0, v0) :: rest) k v = (k0, v0) :: dictSet rest k v by
        simp [dictSet, hk]]
      refine List.nodup_cons.mpr ⟨?_, ih h.2⟩
      intro hmem
      rcases (mem_keys_dictSet rest k k0 v).mp (by simpa using hmem) with h1 | h1
      · exact h.1 h1
      · exact hne h1

theorem parseSingleAttributeSet_keys_nodup (b : AttrBlock) :
    ((parseSingleAttributeSet b).map Prod.fst).Nodup := by
  have hgen : ∀ (l : AttrBlock) (d : List (String × Nat)),
      (d.map Prod.fst).Nodup →
      ((l.foldl (fun d p => dictSet d p.1 p.2) d).map Prod.fst).Nodup := by
    intro l
    induction l with
    | nil => intro d hd; simpa using hd
    | cons p rest ih =>
      intro d hd
      exact ih (dictSet d p.1 p.2) (keys_dictSet_nodup d p.1 p.2 hd)
  exact hgen b [] (by simp)

theorem dupScan_mem (names : List String) (hn : names.Nodup)
    (st : List String × List String) (n : String) :
    (n ∈ (dupScan names st).1 ↔ n ∈ st.1 ∨ n ∈ names) ∧
    (n ∈ (dupScan names st).2 ↔ n ∈ st.2 ∨ (n ∈ st.1 ∧ n ∈ names)) := by
  induction names generalizing st with
  | nil => simp [dupScan]
  | cons name rest ih =>
    rw [List.nodup_cons] at hn
    obtain ⟨ih1, ih2⟩ := ih hn.2 (dupScanStep st name)
    have hstep : dupScan (name :: rest) st = dupScan rest (dupScanStep st name) := rfl
    rw [hstep, ih1, ih2]
    clear ih ih1 ih2 hstep
    simp only [List.mem_cons]
    by_cases hseen : name ∈ st.1
    · have h1 : (dupScanStep st name).1 = st.1 := by simp [dupScanStep, hseen]
      have hme : n = name → n ∈ st.1 := fun h => h ▸ hseen
      by_cases hdup : name ∈ st.2
      · have h2 : (dupScanStep st name).2 = st.2 := by simp [dupScanStep, hseen, hdup]
        have hme2 : n = name → n ∈ st.2 := fun h => h ▸ hdup
        rw [h1, h2]
        constructor
        · tauto
        · tauto
      · have h2 : (dupScanStep st name).2 = st.2 ++ [name] := by
          simp [dupScanStep, hseen, hdup]
        rw [h1, h2]
        simp only [List.mem_append, List.mem_singleton]
        constructor
        · tauto
        · tauto
    · have h1 : (dupScanStep st name).1 = st.1 ++ [name] := by simp [dupScanStep, hseen]
      have h2 : (dupScanStep st name).2 = st.2 := by simp [dupScanStep, hseen]
      have hne1 : n = name → n ∉ st.1 := fun h => h ▸ hseen
      have hne2 : n = name → n ∉ rest := fun h => h ▸ hn.1
      rw [h1, h2]
      simp only [List.mem_append, List.mem_singleton]
      constructor
      · tauto
      · tauto

/-- First of two options, mirroring the shadowing order of lookups. -/
def optFirst (a b : Option α) : Option α :=
  match a with
  | some v => some v
  | none => b

/-- The first occurrence of a field name across the attribute sets in block
order, stated as the specification reads: the first set holding the name
provides the value. -/
def firstOccurrence (sets : List (List (String × Nat))) (n : String) : Option Nat :=
  (sets.filterMap (fun s => dictGet s n)).head?

theorem optFirst_assoc (a b c : Option α) :
    optFirst (optFirst a b) c = optFirst a (optFirst b c) := by
  cases a <;> simp [optFirst]

theorem mergeOneSet_lookup (s : List (String × Nat)) (m : List (String × Nat))
    (n : String) :
    dictGet (mergeOneSet m s) n = optFirst (dictGet m n) (dictGet s n) := by
  induction s generalizing m with
  | nil => cases h : dictGet m n <;> simp [mergeOneSet, dictGet, optFirst, h]
  | cons p rest ih =>
    have hstep : mergeOneSet m (p :: rest) =
        mergeOneSet (if (dictGet m p.1).isNone then m ++ [p] else m) rest := rfl
    rw [hstep]
    by_cases hm : (dictGet m p.1).isNone = true
    · obtain ⟨k, v⟩ := p
      have hmk : dictGet m k = none := Option.isNone_iff_eq_none.mp hm
      rw [if_pos hm, ih, dictGet_append]
      by_cases hkn : (k == n) = true
      · have hk : k = n := by simpa using hkn
        subst hk
        simp [dictGet, hmk, optFirst]
      · cases hmn : dictGet m n <;> simp [dictGet, hkn, hmn, optFirst]
    · obtain ⟨k, v⟩ := p
      rw [if_neg hm, ih]
      cases hmn : dictGet m n with
      | some w => simp [optFirst]
      | none =>
        by_cases hkn : (k == n) = true
        · have hk : k = n := by simpa using hkn
          rw [show ((k, v).1 : String) = k from rfl, hk, hmn] at hm
          simp at hm
        · simp [dictGet, hkn, optFirst, hmn]

theorem firstOccurrence_cons (s : List (String × Nat))
    (rest : List (List (String × Nat))) (n : String) :
    firstOccurrence (s :: rest) n =
      optFirst (dictGet s n) (firstOccurrence rest n) := by
  cases h : dictGet s n <;> simp [firstOccurrence, List.filterMap_cons, h, optFirst]

theorem mergeAttributes_foldl_lookup (sets : List (List (String × Nat)))
    (m : List (String × Nat)) (n : String) :
    dictGet (sets.foldl mergeOneSet m) n =
      optFirst (dictGet m n) (firstOccurrence sets n) := by
  induction sets generalizing m with
  | nil => cases h : dictGet m n <;> simp [firstOccurrence, optFirst, h]
  | cons s rest ih =>
    rw [List.foldl_cons, ih, mergeOneSet_lookup, optFirst_assoc, firstOccurrence_cons]

/-- First-occurrence-wins characterisation of `merge_attributes`. -/
theorem mergeAttributes_lookup (sets : List (List (String × Nat))) (n : String) :
    dictGet (mergeAttributes sets) n = firstOccurrence sets n := by
  rw [mergeAttributes, mergeAttributes_foldl_lookup]
  simp [dictGet, optFirst]

theorem dupScan_foldl_mem (sets : List (List (String × Nat)))
    (hnd : ∀ s ∈ sets, (s.map Prod.fst).Nodup)
    (st : List String × List String) (n : String) :
    (n ∈ (sets.foldl (fun st s => dupScan (s.map Prod.fst) st) st).1 ↔
      n ∈ st.1 ∨ 1 ≤ sets.countP (fun s => (dictGet s n).isSome)) ∧
    (n ∈ (sets.foldl (fun st s => dupScan (s.map Prod.fst) st) st).2 ↔
      n ∈ st.2 ∨ (n ∈ st.1 ∧ 1 ≤ sets.countP (fun s => (dictGet s n).isSome)) ∨
        2 ≤ sets.countP (fun s => (dictGet s n).isSome)) := by
  induction sets generalizing st with
  | nil => simp
  | cons s rest ih =>
    have hs1 := (dupScan_mem (s.map Prod.fst) (hnd s (by simp)) st n).1
    have hs2 := (dupScan_mem (s.map Prod.fst) (hnd s (by simp)) st n).2
    have hrest : ∀ t ∈ rest, (t.map Prod.fst).Nodup := fun t ht => hnd t (by simp [ht])
    obtain ⟨ih1, ih2⟩ := ih hrest (dupScan (s.map Prod.fst) st)
    rw [List.foldl_cons] at *
    rw [ih1, ih2, hs1, hs2]
    clear ih ih1 ih2 hs1 hs2
    rw [List.countP_cons]
    by_cases hsn : n ∈ s.map Prod.fst
    · have hdec : ((dictGet s n).isSome : Bool) = true :=
        (dictGet_isSome_iff_mem_keys s n).mpr hsn
      have hone : (if ((dictGet s n).isSome : Bool) = true then 1 else 0) = 1 := by
        simp [hdec]
      rw [hone]
      set c := rest.countP (fun s => (dictGet s n).isSome) with hc
      have ha : 1 ≤ c + 1 := by omega
      have hb : 2 ≤ c + 1 ↔ 1 ≤ c := by omega
      have hcc : 2 ≤ c → 1 ≤ c := by omega
      rw [hb]
      constructor
      · tauto
      · tauto
    · have hdec : ((dictGet s n).isSome : Bool) = false := by
        rw [Bool.eq_false_iff]
        intro hx
        exact hsn ((dictGet_isSome_iff_mem_keys s n).mp hx)
      have hzero : (if ((dictGet s n).isSome : Bool) = true then 1 else 0) = 0 := by
        simp [hdec]
      rw [hzero, Nat.add_zero]
      constructor
      · tauto
      · tauto

/-- The duplicate list of `check_for_duplicates` holds exactly the names
present in at least two of the (duplicate-free) attribute sets. -/
theorem checkForDuplicates_mem (sets : List (List (String × Nat)))
    (hnd : ∀ s ∈ sets, (s.map Prod.fst).Nodup) (n : String) :
    n ∈ checkForDuplicates sets ↔
      2 ≤ sets.countP (fun s => (dictGet s n).isSome) := by
  have h := (dupScan_foldl_mem sets hnd ([], []) n).2
  rw [checkForDuplicates, h]
  simp

/-- Counterexample for C8: a single block assigning the same field twice
(`a:1` then `a:2`).  The merged result keeps the later value `a:2`, not the
first occurrence, and no ERROR at all is logged, against the claimed
`a:1`-plus-one-ERROR outcome. -/
theorem within_block_duplicate_last_wins_no_error :
    gaCompositionalPass [[("a", 1), ("a", 2)]] = ([("a", 2)], []) ∧
    dictGet (gaCompositionalPass [[("a", 1), ("a", 2)]]).1 "a" = some 2 := by
  constructor
  · rfl
  · rfl

/-- Claim C8 (amended): duplicate detection and first-wins merging apply
across blocks, each block first collapsed to a name-to-value dict in which a
repeated name silently keeps its last assignment.  The merged dictionary
gives every name the value of its first occurrence in block order; a name is
reported as duplicate exactly when at least two blocks assign it; and the
compositional pass logs no diagnostic without duplicates and exactly one
ERROR naming all of them otherwise. -/
theorem cross_block_duplicates_first_wins (blocks : List AttrBlock) (n : String) :
    dictGet (gaCompositionalPass blocks).1 n =
      firstOccurrence (blocks.map parseSingleAttributeSet) n ∧
    (n ∈ checkForDuplicates (blocks.map parseSingleAttributeSet) ↔
      2 ≤ (blocks.map parseSingleAttributeSet).countP
        (fun s => (dictGet s n).isSome)) ∧
    (gaCompositionalPass blocks).2 =
      (if (checkForDuplicates (blocks.map parseSingleAttributeSet)).isEmpty then []
       else [duplicateAttrEntry
          (checkForDuplicates (blocks.map parseSingleAttributeSet))]) := by
  refine ⟨?_, ?_, ?_⟩
  · rw [show (gaCompositionalPass blocks).1 =
        mergeAttributes (blocks.map parseSingleAttributeSet) from rfl]
    exact mergeAttributes_lookup _ n
  · exact checkForDuplicates_mem _
      (fun s hs => by
        obtain ⟨b, _, hb⟩ := List.mem_map.mp hs
        exact hb ▸ parseSingleAttributeSet_keys_nodup b) n
  · rfl

/-
Claim C2: implicit direct connections in
`PipingNetworkSegmentParser.compositional_pass`.
-/

/-- Kind of a parser in the ordered element list of a piping network segment:
an item parser (piping component, off-page connector, property break) or a
center line parser. -/
inductive SegParserKind
  | item
  | centerLine
deriving DecidableEq, Repr

/-- One ordered element parser, in source sibling order: its kind and the
result of its compositional pass (`none` when the parse failed and the error
boundary returned `None`). -/
structure SegParser where
  kind : SegParserKind
  result : Option ObjId
deriving DecidableEq, Repr

/-- One entry of the parser's `pns_elements` bookkeeping list: a synthesized
`DirectPipingConnection` or whatever a parser returned (possibly `None`). -/
inductive SegElem
  | direct
  | parsed (r : Option ObjId)
deriving DecidableEq, Repr

/-- The element-building loop of
`PipingNetworkSegmentParser.compositional_pass`: walk the ordered parsers in
sibling order carrying the `last_was_item` flag; when an item parser follows
an item parser directly, a direct piping connection is inserted first (the
comparison is on the parser object, so a failed item parse still counts);
then the parser's own element is appended. -/
def buildPnsElements : List SegParser → Bool → List SegElem
  | [], _ => []
  | p :: rest, lastWasItem =>
    match p.kind with
    | .item =>
      (if lastWasItem then [SegElem.direct] else []) ++
        SegElem.parsed p.result :: buildPnsElements rest true
    | .centerLine => SegElem.parsed p.result :: buildPnsElements rest false

/-- The specification reading of rule 1: between every two parsers that are
adjacent in sibling order and both items, exactly one direct connection is
inserted, and nowhere else. -/
def expectedElements : List SegParser → List SegElem
  | [] => []
  | [p] => [SegElem.parsed p.result]
  | p :: q :: rest =>
    SegElem.parsed p.result ::
      ((if p.kind == SegParserKind.item && q.kind == SegParserKind.item then
          [SegElem.direct]
        else []) ++ expectedElements (q :: rest))

/-- Whether the first parser of the list is an item parser. -/
def headIsItem : List SegParser → Bool
  | [] => false
  | p :: _ => p.kind == SegParserKind.item

theorem buildPnsElements_eq_expected (ps : List SegParser) (b : Bool) :
    buildPnsElements ps b =
      (if b && headIsItem ps then [SegElem.direct] else []) ++ expectedElements ps := by
  induction ps generalizing b with
  | nil => cases b <;> simp [buildPnsElements, expectedElements, headIsItem]
  | cons p rest ih =>
    cases rest with
    | nil =>
      cases hk : p.kind <;> cases b <;>
        simp [buildPnsElements, expectedElements, headIsItem, hk]
    | cons q rest2 =>
      cases hk : p.kind with
      | item =>
        rw [show buildPnsElements (p :: q :: rest2) b =
            (if b then [SegElem.direct] else []) ++
              SegElem.parsed p.result :: buildPnsElements (q :: rest2) true from by
          simp only [buildPnsElements, hk]]
        rw [ih true]
        simp only [expectedElements, headIsItem, hk]
        cases b <;> simp
      | centerLine =>
        rw [show buildPnsElements (p :: q :: rest2) b =
            SegElem.parsed p.result :: buildPnsElements (q :: rest2) false from by
          simp only [buildPnsElements, hk]]
        rw [ih false]
        simp only [expectedElements, headIsItem, hk]
        cases b <;> simp

/-- Claim C2: starting from `last_was_item = False`, the element list built
by the compositional pass equals the sibling sequence with exactly one
synthesized direct connection inserted between every two adjacent item
parsers and nothing else. -/
theorem adjacent_items_get_one_direct_connection (ps : List SegParser) :
    buildPnsElements ps false = expectedElements ps := by
  rw [buildPnsElements_eq_expected]
  simp

/-
Claim C1: direction inference and reversal in
`PipingNetworkSegmentParser.reference_pass` / `_infer_is_reversed`.
-/

/-- An item element of a piping network segment: object identity and DEXPI
id (the key into the main inflow/outflow node dictionaries). -/
structure ItemInfo where
  ref : Nat
  id : String
deriving DecidableEq, Repr

/-- A connection element (center line pipe or direct connection): object
identity, DEXPI id, and the four endpoint fields that the reference pass
assigns. -/
structure ConnInfo where
  ref : Nat
  id : String
  sourceItem : Option Nat := none
  sourceNode : Option Nat := none
  targetItem : Option Nat := none
  targetNode : Option Nat := none
deriving DecidableEq, Repr

/-- One parsed element of the segment sequence. -/
inductive PnsElem
  | item (it : ItemInfo)
  | conn (c : ConnInfo)
deriving DecidableEq, Repr

/-- A registered object as the segment reference pass needs it: identity and
its piping node list (for the `FromNode` / `ToNode` index lookups). -/
structure RegObj where
  ref : Nat
  nodes : List Nat
deriving DecidableEq, Repr

/-- State of a `PipingNetworkSegmentParser` at the start of its reference
pass: the `pns_elements` bookkeeping list (entries are `none` when that
parse failed), the `items` and `connections` lists of the segment object,
the three parser bookkeeping lists (parsers by identity), the main
inflow/outflow dictionaries keyed by item id, the extracted external
connection attributes, the object registry, and the segment's own endpoint
fields. -/
structure SegState where
  pnsElements : List (Option PnsElem)
  items : List Nat
  connections : List Nat
  itemParsers : List Nat
  centerLineParsers : List Nat
  orderedParsers : List Nat
  mainInflowNodes : List (String × Option Nat)
  mainOutflowNodes : List (String × Option Nat)
  fromId : Option String
  toId : Option String
  fromNodeIndex : Option Int
  toNodeIndex : Option Int
  registry : List (Option String × RegObj)
  segSourceItem : Option Nat
  segSourceNode : Option Nat
  segTargetItem : Option Nat
  segTargetNode : Option Nat
deriving DecidableEq, Repr

/-- The object identity of an element entry (`none` for a failed parse, so
that the Python identity test `None is None` comes out true). -/
def elemRef : Option PnsElem → Option Nat
  | none => none
  | some (.item it) => some it.ref
  | some (.conn c) => some c.ref

/-- The `id` attribute of an element entry; `none` models the
`AttributeError` of reading `.id` on `None`. -/
def elemId : Option PnsElem → Option String
  | none => none
  | some (.item it) => some it.id
  | some (.conn c) => some c.id

/-- `self.main_inflow_nodes.get(key)`: dict lookup whose stored value may
itself be `None`. -/
def mainNodeLookup (d : List (String × Option Nat)) (k : String) : Option Nat :=
  match dictGet d k with
  | none => none
  | some v => v

/-- `PipingNetworkSegmentParser._infer_is_reversed`: look the declared
external source and target ids up in the registry and compare, by object
identity, against the last and the first element of the sequence. -/
def inferIsReversed (s : SegState) : Bool :=
  match s.pnsElements.getLast?, s.pnsElements.head? with
  | some lastE, some headE =>
    ((dictGet s.registry s.fromId).map RegObj.ref == elemRef lastE) ||
      ((dictGet s.registry s.toId).map RegObj.ref == elemRef headE)
  | _, _ => false

/-- The in-place reversal performed when the segment is inferred reversed:
`pn_segment.items`, `pn_segment.connections`, `item_parsers`,
`center_line_parsers`, `ordered_element_parsers` and `pns_elements` are all
reversed; nothing else (in particular not the id-keyed main node
dictionaries and not the external ids) changes. -/
def reverseSegState (s : SegState) : SegState :=
  { s with
    pnsElements := s.pnsElements.reverse
    items := s.items.reverse
    connections := s.connections.reverse
    itemParsers := s.itemParsers.reverse
    centerLineParsers := s.centerLineParsers.reverse
    orderedParsers := s.orderedParsers.reverse }

/-- The endpoint-assignment loop of the reference pass: every connection
element takes the preceding item (when there is one) as source with that
item's main outflow node, and the following item as target with that item's
main inflow node. -/
def assignConnEndpoints (s : SegState) : List (Option PnsElem) :=
  s.pnsElements.mapIdx fun i e =>
    match e with
    | some (.conn c) =>
      let c1 :=
        match (if 0 < i then s.pnsElements.get? (i - 1) else none) with
        | some (some (.item it)) =>
          { c with sourceItem := some it.ref,
                   sourceNode := mainNodeLookup s.mainOutflowNodes it.id }
        | _ => c
      let c2 :=
        match (if i < s.pnsElements.length - 1 then s.pnsElements.get? (i + 1) else none) with
        | some (some (.item it)) =>
          { c1 with targetItem := some it.ref,
                    targetNode := mainNodeLookup s.mainInflowNodes it.id }
        | _ => c1
      some (.conn c2)
    | e => e

/-- After the external source is set: when the first element is a piping
connection, it inherits the segment's source item and node (an empty element
list raises, `.error`, and voids the rest of the pass). -/
def sourceFirstElem (s : SegState) : Except SegState SegState :=
  match s.pnsElements.head? with
  | none => .error s
  | some e =>
    match e with
    | some (.conn c) =>
      .ok { s with pnsElements := s.pnsElements.set 0 (some (.conn
        { c with sourceItem := s.segSourceItem, sourceNode := s.segSourceNode })) }
    | _ => .ok s

/-- External source binding: when a `FromID` was declared, the segment's
source item is the registry lookup (possibly `None`); a declared `FromNode`
index is resolved against the source item's node list — reading `.nodes` of
a missing object or indexing out of range raises and aborts the pass with
the mutations made so far. -/
def assignExternalSource (s : SegState) : Except SegState SegState :=
  match s.fromId with
  | none => .ok s
  | some _ =>
    let srcObj := dictGet s.registry s.fromId
    let s1 := { s with segSourceItem := srcObj.map RegObj.ref }
    match s.fromNodeIndex with
    | none => sourceFirstElem s1
    | some k =>
      match srcObj with
      | none => .error s1
      | some o =>
        match pyIndex o.nodes k with
        | none => .error s1
        | some nd => sourceFirstElem { s1 with segSourceNode := some nd }

/-- Rule 5 for the source side: when no external source was resolved and the
first ordered parser is an item parser, the first element becomes the
segment's source with its main inflow node (reading `.id` of a failed,
`None`, element raises after the source item was already set). -/
def inferSourceFromFirstItem (s : SegState) : Except SegState SegState :=
  match s.segSourceItem with
  | some _ => .ok s
  | none =>
    match s.orderedParsers.head? with
    | none => .ok s
    | some p0 =>
      if s.itemParsers.contains p0 then
        match s.pnsElements.head? with
        | none => .error s
        | some e =>
          let s1 := { s with segSourceItem := elemRef e }
          match elemId e with
          | none => .error s1
          | some eid =>
            .ok { s1 with segSourceNode := mainNodeLookup s.mainInflowNodes eid }
      else .ok s

/-- After the external target is set: when the last element is a piping
connection, it inherits the segment's target item and node. -/
def targetLastElem (s : SegState) : Except SegState SegState :=
  match s.pnsElements.getLast? with
  | none => .error s
  | some e =>
    match e with
    | some (.conn c) =>
      .ok { s with pnsElements := s.pnsElements.set (s.pnsElements.length - 1) (some (.conn
        { c with targetItem := s.segTargetItem, targetNode := s.segTargetNode })) }
    | _ => .ok s

/-- External target binding, mirroring `assignExternalSource`. -/
def assignExternalTarget (s : SegState) : Except SegState SegState :=
  match s.toId with
  | none => .ok s
  | some _ =>
    let tgObj := dictGet s.registry s.toId
    let s1 := { s with segTargetItem := tgObj.map RegObj.ref }
    match s.toNodeIndex with
    | none => targetLastElem s1
    | some k =>
      match tgObj with
      | none => .error s1
      | some o =>
        match pyIndex o.nodes k with
        | none => .error s1
        | some nd => targetLastElem { s1 with segTargetNode := some nd }

/-- Rule 5 for the target side: the last element becomes the segment's
target with its main outflow node when no external target was resolved and
the last ordered parser is an item parser. -/
def inferTargetFromLastItem (s : SegState) : Except SegState SegState :=
  match s.segTargetItem with
  | some _ => .ok s
  | none =>
    match s.orderedParsers.getLast? with
    | none => .ok s
    | some pl =>
      if s.itemParsers.contains pl then
        match s.pnsElements.getLast? with
        | none => .error s
        | some e =>
          let s1 := { s with segTargetItem := elemRef e }
          match elemId e with
          | none => .error s1
          | some eid =>
            .ok { s1 with segTargetNode := mainNodeLookup s.mainOutflowNodes eid }
      else .ok s

/-- The whole post-reversal portion of the reference pass: connection
endpoint assignment, then external source, inferred source, external target
and inferred target, with any raised exception aborting the remainder. -/
def refAssign (s : SegState) : Except SegState SegState :=
  let s1 := { s with pnsElements := assignConnEndpoints s }
  match assignExternalSource s1 with
  | .error e => .error e
  | .ok s2 =>
    match inferSourceFromFirstItem s2 with
    | .error e => .error e
    | .ok s3 =>
      match assignExternalTarget s3 with
      | .error e => .error e
      | .ok s4 => inferTargetFromLastItem s4

/-- `PipingNetworkSegmentParser.reference_pass` after the skip guard: infer
the direction (an empty element list raises inside the inference), reverse
the whole state when reversed, then assign all sources and targets. -/
def referencePassSeg (s : SegState) : Except SegState SegState :=
  if s.pnsElements.isEmpty then .error s
  else if inferIsReversed s then refAssign (reverseSegState s) else refAssign s

/-- Building the reversed sequence directly, as the specification reads it:
the state whose element list and parser bookkeeping lists hold the same
objects in reversed sibling order — the per-item main inflow/outflow
dictionaries are keyed by item id and therefore identical — followed by the
plain (non-reversed) source/target assignment. -/
def buildReversedDirectly (s : SegState) : Except SegState SegState :=
  refAssign (reverseSegState s)

/-- Claim C1: when the declared external source id resolves to the last
element of the sequence, or the declared external target id to the first,
the reference pass reverses the items, the connections and all three parser
bookkeeping lists in place before any source/target assignment, and its
result — inflow/outflow port assignment included — is exactly what building
the reversed sequence directly and assigning would produce. -/
theorem reversed_segment_assignment (s : SegState)
    (hne : s.pnsElements ≠ [])
    (hrev : inferIsReversed s = true) :
    referencePassSeg s = buildReversedDirectly s ∧
    (reverseSegState s).pnsElements = s.pnsElements.reverse ∧
    (reverseSegState s).items = s.items.reverse ∧
    (reverseSegState s).connections = s.connections.reverse ∧
    (reverseSegState s).itemParsers = s.itemParsers.reverse ∧
    (reverseSegState s).centerLineParsers = s.centerLineParsers.reverse ∧
    (reverseSegState s).orderedParsers = s.orderedParsers.reverse ∧
    (reverseSegState s).mainInflowNodes = s.mainInflowNodes ∧
    (reverseSegState s).mainOutflowNodes = s.mainOutflowNodes := by
  have hempty : s.pnsElements.isEmpty = false := by
    cases h : s.pnsElements with
    | nil => exact absurd h hne
    | cons e es => rfl
  refine ⟨?_, rfl, rfl, rfl, rfl, rfl, rfl, rfl, rfl⟩
  rw [referencePassSeg, buildReversedDirectly, hempty]
  simp [hrev]

/-- A concrete three-element segment (item `A`, a center line, item `B`)
whose declared external source id `B` resolves to the last element of the
sequence, so the direction inference reports it reversed. -/
def sampleRevState : SegState :=
  { pnsElements := [some (.item ⟨1, "A"⟩), some (.conn ⟨2, "C", none, none, none, none⟩),
      some (.item ⟨3, "B"⟩)]
    items := [1, 3]
    connections := [2]
    itemParsers := [11, 13]
    centerLineParsers := [12]
    orderedParsers := [11, 12, 13]
    mainInflowNodes := [("A", some 100), ("B", some 300)]
    mainOutflowNodes := [("A", some 101), ("B", some 301)]
    fromId := some "B"
    toId := none
    fromNodeIndex := none
    toNodeIndex := none
    registry := [(some "A", ⟨1, []⟩), (some "B", ⟨3, []⟩)]
    segSourceItem := none
    segSourceNode := none
    segTargetItem := none
    segTargetNode := none }

/-- Witness for C1 at the concrete segment: the sequence is non-empty, the
inference reports it reversed, and the reference pass equals the direct
build of the reversed sequence. -/
theorem reversed_segment_assignment_witness :
    sampleRevState.pnsElements ≠ [] ∧
    inferIsReversed sampleRevState = true ∧
    referencePassSeg sampleRevState = buildReversedDirectly sampleRevState := by
  refine ⟨by decide, by decide,
    (reversed_segment_assignment sampleRevState (by decide) (by decide)).1⟩

/-
Claim C9: required metadata in `PlantModelParser.compositional_pass`.
This method is the one phase not wrapped by the error boundary, so any
exception it raises propagates out of the load.
-/

/-- The `PlantInformation` element: its flat attribute map. -/
structure PlantInfo where
  attrs : List (String × String)
deriving DecidableEq, Repr

/-- `plant_info.get(key)`. -/
def pinfoGet (info : PlantInfo) (k : String) : Option String :=
  dictGet info.attrs k

/-- The required `PlantInformation` fields, in the order the source checks
them. -/
def requiredPlantFields : List String :=
  ["Date", "Time", "OriginatingSystem", "OriginatingSystemVendor",
    "OriginatingSystemVersion"]

/-- The CRITICAL diagnostic for a missing `PlantInformation` tag; the
attached `ValueError` is raised right after registering it. -/
def plantInfoMissingEntry : ErrEntry :=
  { message := "PlantInformation tag is missing. Info required for dexpi model.",
    level := .critical, exc := some .otherException }

/-- The CRITICAL diagnostic naming the missing required fields; no exception
is attached and none is raised with it. -/
def missingFieldsEntry (missing : List String) : ErrEntry :=
  { message := "Missing fields in PlantInformation: " ++
      String.intercalate ", " missing ++ ". Info required for dexpi model.",
    level := .critical }

/-- A WARNING about one of the fixed `PlantInformation` fields. -/
def plantInfoWarning (msg : String) : ErrEntry :=
  { message := msg, level := .warning }

/-- Python `str.split(sep)` on a character list, accumulating the current
token. -/
def pySplitChar (sep : Char) : List Char → List Char → List (List Char)
  | [], acc => [acc.reverse]
  | c :: rest, acc =>
    if c == sep then acc.reverse :: pySplitChar sep rest []
    else pySplitChar sep rest (c :: acc)

/-- Python `value.split(sep)` for a one-character separator. -/
def pySplit (sep : Char) (s : String) : List (List Char) :=
  pySplitChar sep s.data []

def pyParseIntAux : List Char → Nat → Option Nat
  | [], acc => some acc
  | c :: rest, acc =>
    if c.isDigit then pyParseIntAux rest (acc * 10 + (c.toNat - 48)) else none

/-- Python `int(token)` restricted to unsigned decimal literals; `none`
models the `ValueError` of a malformed number. -/
def pyParseInt (s : List Char) : Option Int :=
  match s with
  | [] => none
  | _ => (pyParseIntAux s 0).map Int.ofNat

/-- Python `str.lower` on ASCII. -/
def pyLower (s : String) : List Char :=
  s.data.map fun c => if c.toNat < 65 || 90 < c.toNat then c else Char.ofNat (c.toNat + 32)

/-- Modelled from the spec: the `DexpiModel` object built at the end of the
compositional pass.  The pydantic class `DexpiModel` of
`pydexpi.dexpi_classes` is not part of the serializer sources; following the
specification's data model, which treats the metadata as plain scalar
fields of the domain object, its construction is modelled as total, holding
whatever values were read (absent attributes as `None`). -/
structure DexpiModelRep where
  dateTime : List Int
  originatingSystem : Option String
  originatingSystemVendor : Option String
  originatingSystemVersion : Option String
deriving DecidableEq, Repr

/-- The metadata portion of `PlantModelParser.compositional_pass`, in source
order: a missing `PlantInformation` tag registers CRITICAL and raises; a
non-empty missing-required-fields list registers CRITICAL and continues; the
fixed fields are checked with WARNINGs, where slicing an absent
`ApplicationVersion` or `SchemaVersion` raises; then `Date` and `Time` are
parsed — `.split` on an absent value raises, as does a non-numeric
component (time components are modelled as integer literals; fractional
seconds only affect the microsecond value).  An `.error` result is the
exception propagating out of the load with the diagnostics registered so
far; an `.ok` result is a produced model. -/
def plantModelCompositional (info? : Option PlantInfo) (errors : List ErrEntry) :
    Except (List ErrEntry) (List ErrEntry × DexpiModelRep) :=
  match info? with
  | none => .error (errors ++ [plantInfoMissingEntry])
  | some info =>
    let missing := requiredPlantFields.filter (fun f => (pinfoGet info f).isNone)
    let errs1 := if missing.isEmpty then errors else errors ++ [missingFieldsEntry missing]
    let errs2 := if pinfoGet info "Application" == some "Dexpi" then errs1
      else errs1 ++ [plantInfoWarning "Unexpected Application value."]
    match pinfoGet info "ApplicationVersion" with
    | none => .error errs2
    | some ver =>
      let errs3 := if ver.data.take 3 == "1.3".data then errs2
        else errs2 ++ [plantInfoWarning "Unexpected ApplicationVersion value."]
      let errs4 := if pinfoGet info "Discipline" == some "PID" then errs3
        else errs3 ++ [plantInfoWarning "Unexpected Discipline value."]
      let errs5 :=
        match pinfoGet info "Is3D" with
        | none => errs4
        | some v => if pyLower v == "no".data then errs4
          else errs4 ++ [plantInfoWarning "Unexpected Is3D value."]
      match pinfoGet info "SchemaVersion" with
      | none => .error errs5
      | some sch =>
        let errs6 := if sch.data.take 3 == "4.1".data then errs5
          else errs5 ++ [plantInfoWarning "Unexpected SchemaVersion value."]
        match pinfoGet info "Date" with
        | none => .error errs6
        | some d =>
          match (pySplit (Char.ofNat 45) d).mapM pyParseInt with
          | none => .error errs6
          | some dateParts =>
            match pinfoGet info "Time" with
            | none => .error errs6
            | some t =>
              match (pySplit (Char.ofNat 58) t).mapM pyParseInt with
              | none => .error errs6
              | some timeParts =>
                if timeParts.length < 3 then .error errs6
                else
                  .ok (errs6,
                    { dateTime := dateParts ++ timeParts.take 3
                      originatingSystem := pinfoGet info "OriginatingSystem"
                      originatingSystemVendor := pinfoGet info "OriginatingSystemVendor"
                      originatingSystemVersion := pinfoGet info "OriginatingSystemVersion" })

/-- A `PlantInformation` element with valid date, time and fixed fields but
no originating-system fields. -/
def plantInfoNoOrigin : PlantInfo :=
  { attrs := [("Date", "2024-01-01"), ("Time", "12:00:00"), ("Application", "Dexpi"),
      ("ApplicationVersion", "1.3.0"), ("Discipline", "PID"), ("Is3D", "No"),
      ("SchemaVersion", "4.1.0")] }

/-- The same element with the originating-system fields present but no
`Date`. -/
def plantInfoNoDate : PlantInfo :=
  { attrs := [("Time", "12:00:00"), ("Application", "Dexpi"),
      ("ApplicationVersion", "1.3.0"), ("Discipline", "PID"), ("Is3D", "No"),
      ("SchemaVersion", "4.1.0"), ("OriginatingSystem", "S"),
      ("OriginatingSystemVendor", "V"), ("OriginatingSystemVersion", "1")] }

/-- Claim C9, evaluated at the failing input: with only the three
originating-system fields missing, the CRITICAL diagnostic is registered but
the load continues and produces a model — it does not abort.  For contrast,
a missing `PlantInformation` tag registers CRITICAL and aborts (the attached
`ValueError` is raised), and a missing `Date` registers the CRITICAL and
aborts through the subsequent crash of the date parsing. -/
theorem missing_originating_fields_still_load :
    plantModelCompositional (some plantInfoNoOrigin) [] =
      .ok ([missingFieldsEntry ["OriginatingSystem", "OriginatingSystemVendor",
          "OriginatingSystemVersion"]],
        { dateTime := [2024, 1, 1, 12, 0, 0],
          originatingSystem := none,
          originatingSystemVendor := none,
          originatingSystemVersion := none }) ∧
    plantModelCompositional none [] = .error [plantInfoMissingEntry] ∧
    plantModelCompositional (some plantInfoNoDate) [] =
      .error [missingFieldsEntry ["Date"]] := by
  refine ⟨?_, rfl, ?_⟩ <;> rfl

end Pydexpi
